import Mathlib

/-!
Verification of the challenge-evaluation subsystem of the Cemil Slack bot
(`src/services/challenge_evaluation_service.py`) against its natural-language
specification.  The service's methods are shallowly embedded as pure functions
over an explicit record-store state (`DB`); Slack/cron side effects are logged
as an `Effect` trace.  The evaluation/evaluator/hub/participant repository
files are absent from the source tree, so their simple keyed CRUD behaviour is
modelled from the spec's record-store interface (create/get/update/delete/
list-by-filter) and from the analogous repositories that are present.
-/

namespace Cemil

/-- Python truthiness of an optional string: `None` and `""` are falsy. -/
def truthy : Option String → Bool
  | none => false
  | some s => !s.isEmpty

/-- Row of the `challenge_hubs` table (fields used by the evaluation service). -/
structure ChallengeHub where
  id : String
  creator_id : Option String
  theme : Option String
  status : String
  hub_channel_id : Option String
  challenge_channel_id : Option String
  completed_at : Option String
  deriving Repr, DecidableEq

/-- Row of the `challenge_participants` table. -/
structure Participant where
  id : String
  challenge_hub_id : String
  user_id : String
  deriving Repr, DecidableEq

/-- Row of the challenge-evaluations table.  `github_repo_public` is stored as
an integer flag (`1` truthy), read back with default `0` as in
`evaluation.get("github_repo_public", 0)`. -/
structure Evaluation where
  id : String
  challenge_hub_id : String
  status : String
  deadline_at : Option String
  evaluation_channel_id : Option String
  github_repo_url : Option String
  github_repo_public : Option Nat
  admin_approval : Option String
  true_count : Nat
  false_count : Nat
  final_result : Option String
  completed_at : Option String
  deriving Repr, DecidableEq

/-- Row of the challenge-evaluators table; `vote` is empty until cast. -/
structure Evaluator where
  id : String
  evaluation_id : String
  user_id : String
  vote : Option String
  voted_at : Option String
  deriving Repr, DecidableEq

/-- The record store: the four entity tables the evaluation service touches. -/
structure DB where
  hubs : List ChallengeHub
  participants : List Participant
  evaluations : List Evaluation
  evaluators : List Evaluator
  deriving Repr, DecidableEq

/-- Deterministic stand-ins for the service's environment: the configured
administrator id (`settings.admin_slack_id`, optional), whether the Slack
channel-creation call succeeds, the uuids and timestamps the service draws,
and the id Slack assigns to a newly created channel. -/
structure Env where
  adminId : Option String
  channelCreateOk : Bool
  newEvalId : String
  newChannelId : String
  newChannelSuffix : String
  newJurorId : String
  now : String
  deadlineIso : String
  deriving Repr, DecidableEq

/-- Side effects issued against Slack and the cron scheduler, in order. -/
inductive Effect where
  | createChannel (name : String)
  | inviteUsers (channel : String) (users : List String)
  | postMessage (channel : String) (text : String)
  | postDM (user : String) (text : String)
  | archiveChannel (channel : String)
  | scheduleOnce (jobId : String)
  deriving Repr, DecidableEq

/-- The `{success, message, ...}` result envelope the service returns. -/
structure OpResult where
  success : Bool
  message : String
  action : Option String := none
  count : Option Nat := none
  is_full : Option Bool := none
  evaluation_id : Option String := none
  deriving Repr, DecidableEq

/-- Modelled from the spec: record-store `get` for hubs (keyed lookup). -/
def hubGet (db : DB) (i : String) : Option ChallengeHub :=
  db.hubs.find? (fun h => h.id == i)

/-- Modelled from the spec: record-store `get` for evaluations. -/
def evaluationGet (db : DB) (i : String) : Option Evaluation :=
  db.evaluations.find? (fun e => e.id == i)

/-- Modelled from the spec: `evaluation_repo.get_by_challenge` — list by
`challenge_hub_id` filter and take the first, as in the analogous
`ChallengeSubmissionRepository.get_by_challenge` present in the source. -/
def get_by_challenge (db : DB) (cid : String) : Option Evaluation :=
  db.evaluations.find? (fun e => e.challenge_hub_id == cid)

/-- Modelled from the spec: `participant_repo.list(filters={"challenge_hub_id": cid})`. -/
def participantsOf (db : DB) (cid : String) : List Participant :=
  db.participants.filter (fun p => p.challenge_hub_id == cid)

/-- Modelled from the spec: `evaluator_repo.get_by_evaluation_and_user`. -/
def get_by_evaluation_and_user (db : DB) (eid uid : String) : Option Evaluator :=
  db.evaluators.find? (fun ev => ev.evaluation_id == eid && ev.user_id == uid)

/-- Modelled from the spec: `evaluator_repo.count_evaluators` — size of the
evaluation's jury pool. -/
def count_evaluators (db : DB) (eid : String) : Nat :=
  (db.evaluators.filter (fun ev => ev.evaluation_id == eid)).length

/-- Modelled from the spec: `evaluator_repo.list_by_evaluation`. -/
def list_by_evaluation (db : DB) (eid : String) : List Evaluator :=
  db.evaluators.filter (fun ev => ev.evaluation_id == eid)

/-- Modelled from the spec: the true-vote half of `evaluator_repo.get_votes` —
the running tallies count the jurors whose stored vote is the boolean-like
value `"true"`. -/
def get_votes_true (db : DB) (eid : String) : Nat :=
  (db.evaluators.filter
    (fun ev => ev.evaluation_id == eid && ev.vote == some "true")).length

/-- Modelled from the spec: the false-vote half of `evaluator_repo.get_votes`. -/
def get_votes_false (db : DB) (eid : String) : Nat :=
  (db.evaluators.filter
    (fun ev => ev.evaluation_id == eid && ev.vote == some "false")).length

/-- Modelled from the spec: record-store `update(kind, id, partial)` for
evaluations — apply the partial update to the rows with the given id. -/
def evaluationUpdate (db : DB) (i : String) (f : Evaluation → Evaluation) : DB :=
  { db with evaluations := db.evaluations.map (fun e => if e.id == i then f e else e) }

/-- Modelled from the spec: record-store `update` for hubs. -/
def hubUpdate (db : DB) (i : String) (f : ChallengeHub → ChallengeHub) : DB :=
  { db with hubs := db.hubs.map (fun h => if h.id == i then f h else h) }

/-- Modelled from the spec: record-store `update` for evaluators. -/
def evaluatorUpdate (db : DB) (i : String) (f : Evaluator → Evaluator) : DB :=
  { db with evaluators := db.evaluators.map (fun ev => if ev.id == i then f ev else ev) }

/-- Modelled from the spec: record-store `create` for evaluators. -/
def evaluatorCreate (db : DB) (ev : Evaluator) : DB :=
  { db with evaluators := db.evaluators ++ [ev] }

/-- Modelled from the spec: record-store `create` for evaluations. -/
def evaluationCreate (db : DB) (e : Evaluation) : DB :=
  { db with evaluations := db.evaluations ++ [e] }

/-- Modelled from the spec: record-store `delete` for evaluators (keyed). -/
def evaluatorDelete (db : DB) (i : String) : DB :=
  { db with evaluators := db.evaluators.filter (fun ev => ev.id != i) }

/-- `if channel_id: chat.post_message(channel_id, text)` — post only when the
stored channel reference is truthy. -/
def postIfTruthy (c : Option String) (text : String) : List Effect :=
  match c with
  | some ch => if !ch.isEmpty then [Effect.postMessage ch text] else []
  | none => []

/-- `if channel_id: conv.archive_channel(channel_id)` — archive only when the
stored channel reference is truthy. -/
def archiveIfTruthy (c : Option String) : List Effect :=
  match c with
  | some ch => if !ch.isEmpty then [Effect.archiveChannel ch] else []
  | none => []

/-- Python `str.lower()` on the ASCII vote strings (`vote.lower()`, line 440). -/
def strLower (s : String) : String := String.mk (s.data.map Char.toLower)

/-- Python `str.upper()` on the ASCII result strings (`result.upper()`, line 951). -/
def strUpper (s : String) : String := String.mk (s.data.map Char.toUpper)

/-- Reason string appended when the admin rejected (finalize, line 799). -/
def adminRejectedReason : String := "Admin tarafından reddedildi"

/-- Reason string appended when true votes do not exceed false votes (line 807). -/
def votesReason (tv fv : Nat) : String :=
  "True oyları (" ++ toString tv ++ ") False oylarından (" ++ toString fv ++ ") fazla değil"

/-- Reason string appended when no GitHub repo link was added (line 809). -/
def missingRepoReason : String := "GitHub repo linki eklenmemiş"

/-- Reason string appended when the GitHub repo is not public (line 811). -/
def notPublicReason : String := "GitHub repo public değil"

/-- Failure message assembled from the itemized reasons (lines 799 and 812). -/
def failMessage (reasons : List String) : String :=
  "❌ *Challenge Başarısız*\n\n*Nedenler:*\n" ++
    String.intercalate "\n" (reasons.map (fun r => "• " ++ r))

/-- The finalize decision rule of `finalize_evaluation`, lines 796-812: admin
rejection wins, else success needs a vote majority plus a present, verified
public GitHub repo, else failure with the itemized list of reasons. -/
def computeFinalResult (admin_approval : Option String) (true_votes false_votes : Nat)
    (github_public : Bool) (github_url : Option String) : String × List String :=
  if admin_approval == some "rejected" then
    ("failed", [adminRejectedReason])
  else if true_votes > false_votes && github_public && truthy github_url then
    ("success", [])
  else
    ("failed",
      (if true_votes ≤ false_votes then [votesReason true_votes false_votes] else []) ++
      (if !truthy github_url then [missingRepoReason]
       else if !github_public then [notPublicReason] else []))

/-- `finalize_evaluation(evaluation_id, admin_approval)`, lines 775-889: no-op
unless the evaluation exists and its status is `"evaluating"`; otherwise
recompute the tallies, apply the decision rule, mark the evaluation and its
hub `"completed"`, post the result to the hub and challenge channels, and
archive the evaluation channel. -/
def finalize_evaluation (env : Env) (db : DB) (evaluation_id : String)
    (admin_approval : Option String) : DB × List Effect :=
  match evaluationGet db evaluation_id with
  | none => (db, [])
  | some evaluation =>
    if evaluation.status != "evaluating" then (db, [])
    else
      let true_votes := get_votes_true db evaluation_id
      let false_votes := get_votes_false db evaluation_id
      let github_public := (evaluation.github_repo_public.getD 0) == 1
      let github_url := evaluation.github_repo_url
      let fr := computeFinalResult admin_approval true_votes false_votes github_public github_url
      let result_message := if fr.1 == "success" then "🎉 *Challenge Başarılı!*" else failMessage fr.2
      let db1 := evaluationUpdate db evaluation_id (fun e =>
        { e with status := "completed", final_result := some fr.1, completed_at := some env.now })
      let challenge_id := evaluation.challenge_hub_id
      let db2 :=
        match hubGet db1 challenge_id with
        | none => db1
        | some _ => hubUpdate db1 challenge_id (fun h =>
            { h with status := "completed", completed_at := some env.now })
      let msgEffects :=
        match hubGet db1 challenge_id with
        | none => []
        | some challenge =>
          postIfTruthy challenge.hub_channel_id result_message ++
            postIfTruthy challenge.challenge_channel_id result_message
      (db2, msgEffects ++ archiveIfTruthy evaluation.evaluation_channel_id)

/-- `start_evaluation(challenge_id, trigger_channel_id)`, lines 43-217: reject
when the hub is missing or an evaluation already exists for it; otherwise
create the evaluation record in status `"pending"`, attempt to create the
private evaluation channel (on failure the method returns with the record
still in the store), move the record to `"evaluating"`, invite
creator ∪ participants ∪ admin, schedule the 48h finalize timer and post the
welcome and jury-recruitment messages. -/
def start_evaluation (env : Env) (db : DB) (challenge_id trigger_channel_id : String) :
    OpResult × DB × List Effect :=
  match hubGet db challenge_id with
  | none => ({ success := false, message := "❌ Challenge bulunamadı." }, db, [])
  | some challenge =>
    match get_by_challenge db challenge_id with
    | some _ =>
      ({ success := false, message := "⚠️ Bu challenge için değerlendirme zaten başlatılmış." }, db, [])
    | none =>
      let evaluation_id := env.newEvalId
      let db1 := evaluationCreate db
        { id := evaluation_id, challenge_hub_id := challenge_id, status := "pending",
          deadline_at := some env.deadlineIso, evaluation_channel_id := none,
          github_repo_url := none, github_repo_public := none, admin_approval := none,
          true_count := 0, false_count := 0, final_result := none, completed_at := none }
      let channel_name := "challenge-evaluation-" ++ env.newChannelSuffix
      if !env.channelCreateOk then
        ({ success := false, message := "❌ Değerlendirme kanalı oluşturulamadı." }, db1,
          [Effect.createChannel channel_name])
      else
        let eval_channel_id := env.newChannelId
        let db2 := evaluationUpdate db1 evaluation_id (fun e =>
          { e with evaluation_channel_id := some eval_channel_id, status := "evaluating" })
        let participant_ids := (participantsOf db challenge_id).map (fun p => p.user_id)
        let all_user_ids :=
          ((match challenge.creator_id with | some c => [c] | none => []) ++
            participant_ids ++
            (match env.adminId with | some a => if !a.isEmpty then [a] else [] | none => [])).eraseDups
        let target_channel :=
          match challenge.hub_channel_id with
          | some ch => if !ch.isEmpty then ch else trigger_channel_id
          | none => trigger_channel_id
        ({ success := true, message := "✅ Değerlendirme başlatıldı!",
           evaluation_id := some evaluation_id }, db2,
          [Effect.createChannel channel_name,
           Effect.inviteUsers eval_channel_id all_user_ids,
           Effect.scheduleOnce ("finalize_evaluation_" ++ evaluation_id),
           Effect.postMessage eval_channel_id "👋 Değerlendirme Başladı!",
           Effect.postMessage target_channel ("📣 Jüri Aranıyor: " ++ challenge.theme.getD "None")])

/-- The jury-pool count read at the head of `toggle_juror`'s join branch
(line 283): a separate repository read, not part of the insert. -/
def tj_read_count (db : DB) (evaluation_id : String) : Nat :=
  count_evaluators db evaluation_id

/-- The juror insert of `toggle_juror`'s join branch (lines 292-297). -/
def tj_insert (env : Env) (db : DB) (evaluation_id user_id : String) : DB :=
  evaluatorCreate db
    { id := env.newJurorId, evaluation_id := evaluation_id, user_id := user_id,
      vote := none, voted_at := none }

/-- Greeting posted to the evaluation channel when the pool fills (line 329). -/
def juryAssembledText : String := "🚨 *JÜRİ EKİBİ TOPLANDI!* 🚨"

/-- The tail of `toggle_juror`'s join branch (lines 298-359): `current_count`
is the separately read pre-insert count plus one; the join DM reports it, and
when it reaches 3 the full juror list is fetched and batch-invited into the
evaluation channel.  `is_full` is derived from this count. -/
def tj_join_finish (db : DB) (evaluation : Evaluation) (challenge : ChallengeHub)
    (user_id : String) (current_count : Nat) : OpResult × List Effect :=
  let joinDM := [Effect.postDM user_id
    ("🎉 `" ++ challenge.theme.getD "None" ++ "` projesi için jüri adaylığınız alındı! (" ++
      toString current_count ++ "/3)")]
  let fillEffects :=
    if current_count ≥ 3 then
      let juror_ids := (list_by_evaluation db evaluation.id).map (fun j => j.user_id)
      match evaluation.evaluation_channel_id with
      | some ch =>
        if !ch.isEmpty then
          [Effect.inviteUsers ch juror_ids, Effect.postMessage ch juryAssembledText] ++
            juror_ids.map (fun j =>
              Effect.postDM j "🚀 Jüri ekibi tamamlandı ve kanala eklendiniz! Görev başına!")
        else []
      | none => []
    else []
  ({ success := true,
     message := "✅ Jüri listesine eklendiniz! (" ++ toString current_count ++ "/3)",
     action := some "joined", count := some current_count,
     is_full := some (decide (current_count ≥ 3)) }, joinDM ++ fillEffects)

/-- `toggle_juror(evaluation_id, user_id)`, lines 219-366: eligibility check
first (project team and admin can never join), then toggle — an existing
juror is removed; a new juror is inserted only after the separately read
count is checked against the capacity of 3. -/
def toggle_juror (env : Env) (db : DB) (evaluation_id user_id : String) :
    OpResult × DB × List Effect :=
  match evaluationGet db evaluation_id with
  | none => ({ success := false, message := "❌ Değerlendirme bulunamadı." }, db, [])
  | some evaluation =>
    match hubGet db evaluation.challenge_hub_id with
    | none => ({ success := false, message := "❌ Challenge bulunamadı." }, db, [])
    | some challenge =>
      let participant_ids := (participantsOf db challenge.id).map (fun p => p.user_id)
      if some user_id == env.adminId || some user_id == challenge.creator_id ||
          participant_ids.contains user_id then
        ({ success := false, message := "⚠️ Proje ekibi veya admin jüri olamaz.",
           action := some "none" }, db, [])
      else
        match get_by_evaluation_and_user db evaluation_id user_id with
        | some existing_juror =>
          let db1 := evaluatorDelete db existing_juror.id
          let count := count_evaluators db1 evaluation_id
          ({ success := true, message := "❌ Jüri adaylığından çekildiniz.",
             action := some "left", count := some count }, db1,
            [Effect.postDM user_id
              ("ℹ️ `" ++ challenge.theme.getD "None" ++ "` projesi jüri adaylığından çekildiniz.")])
        | none =>
          let current_count := tj_read_count db evaluation_id
          if current_count ≥ 3 then
            ({ success := false, message := "⚠️ Jüri kontenjanı dolu (3/3).",
               action := some "full" }, db, [])
          else
            let db1 := tj_insert env db evaluation_id user_id
            let fin := tj_join_finish db1 evaluation challenge user_id (current_count + 1)
            (fin.1, db1, fin.2)

/-- `submit_vote(evaluation_id, user_id, vote)`, lines 368-567: reject when the
evaluation or hub is missing, the caller is the admin, the hub creator, a
participant, not a registered juror, or has already voted; otherwise persist
the lowercased vote, recompute the running tallies, and once the total
reaches 3 post either the admin-approval prompt or the fix-the-repo message.
The evaluation's status is never touched here. -/
def submit_vote (env : Env) (db : DB) (evaluation_id user_id vote : String) :
    OpResult × DB × List Effect :=
  match evaluationGet db evaluation_id with
  | none => ({ success := false, message := "❌ Değerlendirme bulunamadı." }, db, [])
  | some evaluation =>
    match hubGet db evaluation.challenge_hub_id with
    | none => ({ success := false, message := "❌ Challenge bulunamadı." }, db, [])
    | some challenge =>
      if some user_id == env.adminId then
        ({ success := false,
           message := "❌ Admin olarak oy veremezsiniz. Sadece 'Onayla ve Bitir' / 'Reddet ve Bitir' butonlarını kullanabilirsiniz." },
          db, [])
      else
        let participant_ids := (participantsOf db challenge.id).map (fun p => p.user_id)
        if some user_id == challenge.creator_id then
          ({ success := false,
             message := "❌ Proje sahibi olarak oy veremezsiniz. Sadece harici değerlendiriciler oy kullanabilir." },
            db, [])
        else if participant_ids.contains user_id then
          ({ success := false,
             message := "❌ Proje ekibi üyesi olarak oy veremezsiniz. Sadece harici değerlendiriciler oy kullanabilir." },
            db, [])
        else
          match get_by_evaluation_and_user db evaluation_id user_id with
          | none =>
            ({ success := false, message := "❌ Bu değerlendirmenin değerlendiricisi değilsiniz." },
              db, [])
          | some evaluator =>
            if truthy evaluator.vote then
              ({ success := false, message := "⚠️ Zaten oy verdiniz. Oyunuzu değiştiremezsiniz." },
                db, [])
            else
              let db1 := evaluatorUpdate db evaluator.id (fun ev =>
                { ev with vote := some (strLower vote), voted_at := some env.now })
              let vt := get_votes_true db1 evaluation_id
              let vf := get_votes_false db1 evaluation_id
              let db2 := evaluationUpdate db1 evaluation_id (fun e =>
                { e with true_count := vt, false_count := vf })
              let total_votes := vt + vf
              let effs :=
                if total_votes ≥ 3 then
                  match evaluation.evaluation_channel_id with
                  | some ch =>
                    if !ch.isEmpty then
                      if truthy evaluation.github_repo_url &&
                          (evaluation.github_repo_public.getD 0) == 1 then
                        [Effect.postMessage ch
                          "✅ Tüm değerlendiriciler oy verdi ve GitHub repo public! Admin onayı bekleniyor..."]
                      else
                        [Effect.postMessage ch "✅ Tüm değerlendiriciler oy verdi!"]
                    else []
                  | none => []
                else []
              ({ success := true, message := "✅ Oyunuz kaydedildi: *" ++ vote ++ "*" },
                db2, effs)

/-- `admin_finalize_evaluation(evaluation_id, admin_user_id, approval)`, lines
715-773: admin-only; rejects an already-completed evaluation; records the
admin decision on the evaluation and delegates to `finalize_evaluation` with
that decision forced. -/
def admin_finalize_evaluation (env : Env) (db : DB)
    (evaluation_id admin_user_id approval : String) : OpResult × DB × List Effect :=
  if !(some admin_user_id == env.adminId) then
    ({ success := false, message := "❌ Sadece admin bu işlemi yapabilir." }, db, [])
  else
    match evaluationGet db evaluation_id with
    | none => ({ success := false, message := "❌ Değerlendirme bulunamadı." }, db, [])
    | some evaluation =>
      if evaluation.status == "completed" then
        ({ success := false, message := "⚠️ Bu değerlendirme zaten tamamlanmış." }, db, [])
      else
        let db1 := evaluationUpdate db evaluation_id (fun e =>
          { e with admin_approval := some approval })
        let fin := finalize_evaluation env db1 evaluation_id (some approval)
        (if approval == "approved" then
          { success := true, message := "✅ Değerlendirme admin tarafından onaylandı ve tamamlandı." }
         else
          { success := true, message := "❌ Değerlendirme admin tarafından reddedildi ve tamamlandı." },
          fin.1, fin.2)

/-- `force_complete_evaluation(evaluation_id, admin_user_id, result)`, lines
891-956: admin-only escape hatch that, without any status guard, overwrites
the evaluation's status/final_result/completed_at, marks the hub completed,
posts the decision and archives the evaluation channel. -/
def force_complete_evaluation (env : Env) (db : DB)
    (evaluation_id admin_user_id result : String) : OpResult × DB × List Effect :=
  if !(some admin_user_id == env.adminId) then
    ({ success := false, message := "❌ Yetkisiz işlem." }, db, [])
  else
    match evaluationGet db evaluation_id with
    | none => ({ success := false, message := "❌ Değerlendirme bulunamadı." }, db, [])
    | some evaluation =>
      let final_result := result
      let result_message :=
        if result == "success" then "🎉 *Challenge Başarılı!* (Yönetici Kararı)"
        else "❌ *Challenge Başarısız* (Yönetici Kararı)"
      let db1 := evaluationUpdate db evaluation_id (fun e =>
        { e with status := "completed", final_result := some final_result,
                 completed_at := some env.now })
      let db2 := hubUpdate db1 evaluation.challenge_hub_id (fun h =>
        { h with status := "completed", completed_at := some env.now })
      let effs :=
        match evaluation.evaluation_channel_id with
        | some ch =>
          if !ch.isEmpty then
            [Effect.postMessage ch result_message, Effect.archiveChannel ch]
          else []
        | none => []
      ({ success := true, message := "✅ Değerlendirme zorla bitirildi: " ++ strUpper result },
        db2, effs)

/-- Recognizer for channel-archival effects. -/
def isArchive : Effect → Bool
  | Effect.archiveChannel _ => true
  | _ => false

/-- Recognizer for batch-invite effects. -/
def isInvite : Effect → Bool
  | Effect.inviteUsers _ _ => true
  | _ => false

/-- Number of channel archivals in an effect trace. -/
def countArchive (l : List Effect) : Nat := (l.filter isArchive).length

/-! ### Concrete fixtures used by witnesses and counterexamples -/

/-- A concrete environment: admin `"ADMIN"`, Slack calls succeed. -/
def exEnv : Env :=
  { adminId := some "ADMIN", channelCreateOk := true, newEvalId := "e-new",
    newChannelId := "EVCH", newChannelSuffix := "abcd1234", newJurorId := "j-new",
    now := "2026-01-02T00:00:00", deadlineIso := "2026-01-04T00:00:00" }

/-- A hub in status `evaluating`, created by `"creator"`. -/
def exHub : ChallengeHub :=
  { id := "h1", creator_id := some "creator", theme := some "AI Chatbot",
    status := "evaluating", hub_channel_id := some "HUBCH",
    challenge_channel_id := some "CHALCH", completed_at := none }

/-- An evaluation in progress with a verified public GitHub repo. -/
def exEval : Evaluation :=
  { id := "e1", challenge_hub_id := "h1", status := "evaluating",
    deadline_at := some "D", evaluation_channel_id := some "EVCH",
    github_repo_url := some "https://github.com/u/r", github_repo_public := some 1,
    admin_approval := none, true_count := 2, false_count := 0,
    final_result := none, completed_at := none }

/-- Store with `exHub`, `exEval`, one participant, two cast votes and one
registered juror (`"u3"`) who has not voted yet. -/
def exDB : DB :=
  { hubs := [exHub], participants := [⟨"p1", "h1", "member1"⟩],
    evaluations := [exEval],
    evaluators := [⟨"j1", "e1", "u1", some "true", some "T"⟩,
                   ⟨"j2", "e1", "u2", some "true", some "T"⟩,
                   ⟨"j3", "e1", "u3", none, none⟩] }

/-- Environment in which Slack channel creation fails. -/
def exEnvFail : Env := { exEnv with channelCreateOk := false }

/-- Store holding only a hub, with no evaluation yet. -/
def exDBHubOnly : DB :=
  { hubs := [exHub], participants := [⟨"p1", "h1", "member1"⟩],
    evaluations := [], evaluators := [] }

/-- A hub already marked completed. -/
def exHubDone : ChallengeHub :=
  { exHub with status := "completed", completed_at := some "T0" }

/-- An evaluation already completed with result `success`. -/
def exEvalDone : Evaluation :=
  { exEval with status := "completed", final_result := some "success", completed_at := some "T0" }

/-- Store whose evaluation is already terminal (`completed`, result success). -/
def exDBDone : DB :=
  { hubs := [exHubDone],
    participants := [⟨"p1", "h1", "member1"⟩],
    evaluations := [exEvalDone],
    evaluators := [⟨"j1", "e1", "u1", some "true", some "T"⟩] }

/-- Store with a two-member jury pool, one join away from full. -/
def exDBTwoJurors : DB :=
  { hubs := [exHub], participants := [⟨"p1", "h1", "member1"⟩],
    evaluations := [exEval],
    evaluators := [⟨"j1", "e1", "u1", none, none⟩,
                   ⟨"j2", "e1", "u2", none, none⟩] }

/-- Second environment, drawing a different juror uuid. -/
def exEnvB : Env := { exEnv with newJurorId := "j-new-b" }

/-! ### General lemmas about the record-store primitives -/

lemma find?_map_eq {α : Type} (l : List α) (g : α → α) (p : α → Bool)
    (h : ∀ x ∈ l, p (g x) = p x) :
    (l.map g).find? p = (l.find? p).map g := by
  induction l with
  | nil => rfl
  | cons a l ih =>
    have ha := h a (List.mem_cons_self a l)
    cases hpa : p a with
    | true =>
      rw [List.map_cons, List.find?_cons_of_pos _ (by rw [ha, hpa]),
        List.find?_cons_of_pos _ hpa, Option.map_some']
    | false =>
      rw [List.map_cons, List.find?_cons_of_neg _ (by simp [ha, hpa]),
        List.find?_cons_of_neg _ (by simp [hpa]),
        ih (fun x hx => h x (List.mem_cons_of_mem a hx))]

lemma length_filter_map_eq {α : Type} (l : List α) (g : α → α) (p : α → Bool)
    (h : ∀ x ∈ l, p (g x) = p x) :
    ((l.map g).filter p).length = (l.filter p).length := by
  induction l with
  | nil => rfl
  | cons a l ih =>
    have ha := h a (List.mem_cons_self a l)
    have ih' := ih (fun x hx => h x (List.mem_cons_of_mem a hx))
    simp only [List.map_cons, List.filter_cons, ha]
    cases p a <;> simp [ih']

/-- Updating an evaluation id-preservingly commutes with the keyed lookup. -/
lemma evaluationGet_update (db : DB) (i : String) (f : Evaluation → Evaluation)
    (hf : ∀ e, (f e).id = e.id) :
    evaluationGet (evaluationUpdate db i f) i = (evaluationGet db i).map f := by
  unfold evaluationGet evaluationUpdate
  rw [find?_map_eq]
  · cases hfind : db.evaluations.find? (fun e => e.id == i) with
    | none => rfl
    | some e =>
      have hp : (e.id == i) = true := by
        have := List.find?_some hfind
        simpa using this
      simp only [Option.map_some']
      rw [if_pos hp]
  · intro x _
    by_cases hxi : (x.id == i) = true
    · rw [if_pos hxi]
      have : ((f x).id == i) = true := by rw [hf]; exact hxi
      rw [this, hxi]
    · rw [if_neg hxi]

lemma evaluationGet_hubUpdate (db : DB) (i j : String) (f : ChallengeHub → ChallengeHub) :
    evaluationGet (hubUpdate db i f) j = evaluationGet db j := rfl

lemma evaluationGet_evaluatorUpdate (db : DB) (i j : String) (f : Evaluator → Evaluator) :
    evaluationGet (evaluatorUpdate db i f) j = evaluationGet db j := rfl

lemma hubs_evaluationUpdate (db : DB) (i : String) (f : Evaluation → Evaluation) :
    (evaluationUpdate db i f).hubs = db.hubs := rfl

lemma hubs_evaluatorUpdate (db : DB) (i : String) (f : Evaluator → Evaluator) :
    (evaluatorUpdate db i f).hubs = db.hubs := rfl

lemma countArchive_append (l1 l2 : List Effect) :
    countArchive (l1 ++ l2) = countArchive l1 + countArchive l2 := by
  simp [countArchive, List.filter_append]

lemma countArchive_postIfTruthy (c : Option String) (t : String) :
    countArchive (postIfTruthy c t) = 0 := by
  cases c with
  | none => rfl
  | some ch =>
    by_cases h : ch.isEmpty <;> simp [postIfTruthy, countArchive, h, isArchive]

lemma countArchive_archiveIfTruthy (c : Option String) :
    countArchive (archiveIfTruthy c) ≤ 1 := by
  cases c with
  | none => simp [archiveIfTruthy, countArchive]
  | some ch =>
    by_cases h : ch.isEmpty <;> simp [archiveIfTruthy, countArchive, h, isArchive]

/-- Updating an evaluator in a way that preserves the evaluation and user ids
commutes with the pool-membership lookup. -/
lemma get_by_eval_user_update (db : DB) (jid : String) (f : Evaluator → Evaluator)
    (hf1 : ∀ ev, (f ev).evaluation_id = ev.evaluation_id)
    (hf2 : ∀ ev, (f ev).user_id = ev.user_id) (eid uid : String) :
    get_by_evaluation_and_user (evaluatorUpdate db jid f) eid uid =
      (get_by_evaluation_and_user db eid uid).map
        (fun ev => if ev.id == jid then f ev else ev) := by
  unfold get_by_evaluation_and_user evaluatorUpdate
  refine find?_map_eq _ _ _ ?_
  intro x _
  by_cases hxi : (x.id == jid) = true
  · rw [if_pos hxi, hf1, hf2]
  · rw [if_neg hxi]

lemma hubGet_evaluationUpdate (db : DB) (i j : String) (f : Evaluation → Evaluation) :
    hubGet (evaluationUpdate db i f) j = hubGet db j := rfl

/-- The decision `finalize_evaluation` reaches for the record `ev` of
evaluation `eid`: the rule applied to the recomputed tallies, the stored
public flag (integer, default 0) and the stored repo URL. -/
def finalizeDecision (db : DB) (eid : String) (ev : Evaluation)
    (adm : Option String) : String × List String :=
  computeFinalResult adm (get_votes_true db eid) (get_votes_false db eid)
    ((ev.github_repo_public.getD 0) == 1) ev.github_repo_url

/-! ### Claim theorems -/

/-- The completed record `finalize_evaluation` writes back for `ev`. -/
def finalizeRecord (env : Env) (db : DB) (eid : String) (ev : Evaluation)
    (adm : Option String) : Evaluation :=
  { ev with status := "completed",
            final_result := some (finalizeDecision db eid ev adm).1,
            completed_at := some env.now }

/-- The partial update `finalize_evaluation` applies to the evaluation row. -/
def finalizeUpdateFn (env : Env) (db : DB) (eid : String) (ev : Evaluation)
    (adm : Option String) : Evaluation → Evaluation :=
  fun e =>
    { e with status := "completed",
             final_result := some (finalizeDecision db eid ev adm).1,
             completed_at := some env.now }

/-- C1: for an evaluation whose status is `"evaluating"`, `finalize_evaluation`
marks it completed with the result of the priority rule: an admin decision
`"rejected"` forces result `"failed"` with the rejected-by-administrator
reason alone; otherwise a strict true-vote majority together with a present,
verified-public GitHub artifact yields `"success"`; otherwise the result is
`"failed"` and the itemized reasons include every applicable reason among
insufficient votes, missing artifact, and artifact not public. -/
theorem finalize_decision_rule_c1 (env : Env) (db : DB) (eid : String)
    (adm : Option String) (ev : Evaluation)
    (hev : evaluationGet db eid = some ev) (hst : ev.status = "evaluating") :
    (∃ ev', evaluationGet (finalize_evaluation env db eid adm).1 eid = some ev' ∧
       ev'.status = "completed" ∧
       ev'.final_result = some (finalizeDecision db eid ev adm).1) ∧
    (adm = some "rejected" →
       finalizeDecision db eid ev adm = ("failed", [adminRejectedReason])) ∧
    (adm ≠ some "rejected" →
       get_votes_false db eid < get_votes_true db eid →
       ((ev.github_repo_public.getD 0) == 1) = true →
       truthy ev.github_repo_url = true →
       finalizeDecision db eid ev adm = ("success", [])) ∧
    (adm ≠ some "rejected" →
       ¬(get_votes_false db eid < get_votes_true db eid ∧
          ((ev.github_repo_public.getD 0) == 1) = true ∧
          truthy ev.github_repo_url = true) →
       (finalizeDecision db eid ev adm).1 = "failed" ∧
       (get_votes_true db eid ≤ get_votes_false db eid →
          votesReason (get_votes_true db eid) (get_votes_false db eid) ∈
            (finalizeDecision db eid ev adm).2) ∧
       (truthy ev.github_repo_url = false →
          missingRepoReason ∈ (finalizeDecision db eid ev adm).2) ∧
       (truthy ev.github_repo_url = true → ((ev.github_repo_public.getD 0) == 1) = false →
          notPublicReason ∈ (finalizeDecision db eid ev adm).2)) := by
  have hbne : (ev.status != "evaluating") = false := by simp [hst]
  refine ⟨?_, ?_, ?_, ?_⟩
  · simp only [finalize_evaluation, hev, hbne, Bool.false_eq_true, if_false]
    refine ⟨finalizeRecord env db eid ev adm, ?_, rfl, rfl⟩
    split
    · show evaluationGet
        (evaluationUpdate db eid (finalizeUpdateFn env db eid ev adm)) eid =
        some (finalizeRecord env db eid ev adm)
      rw [evaluationGet_update db eid (finalizeUpdateFn env db eid ev adm) (fun e => rfl),
        hev, Option.map_some']
      rfl
    · show evaluationGet
        (hubUpdate (evaluationUpdate db eid (finalizeUpdateFn env db eid ev adm))
          ev.challenge_hub_id _) eid =
        some (finalizeRecord env db eid ev adm)
      rw [evaluationGet_hubUpdate,
        evaluationGet_update db eid (finalizeUpdateFn env db eid ev adm) (fun e => rfl),
        hev, Option.map_some']
      rfl
  · intro h
    subst h
    simp [finalizeDecision, computeFinalResult]
  · intro hne hmaj hpub hurl
    have hbne2 : (adm == some "rejected") = false := by
      simpa using hne
    simp [finalizeDecision, computeFinalResult, hbne2, hmaj, hpub, hurl]
  · intro hne hfail
    have hbne2 : (adm == some "rejected") = false := by
      simpa using hne
    have hcond : (decide (get_votes_false db eid < get_votes_true db eid) &&
        ((ev.github_repo_public.getD 0) == 1) && truthy ev.github_repo_url) = false := by
      by_contra hc
      rw [Bool.not_eq_false] at hc
      simp only [Bool.and_eq_true, decide_eq_true_eq] at hc
      exact hfail ⟨hc.1.1, hc.1.2, hc.2⟩
    refine ⟨?_, ?_, ?_, ?_⟩
    · simp [finalizeDecision, computeFinalResult, hbne2, hcond]
    · intro hle
      simp [finalizeDecision, computeFinalResult, hbne2, hcond, hle]
    · intro hnourl
      simp [finalizeDecision, computeFinalResult, hbne2, hcond, hnourl]
    · intro hurl hnopub
      simp [finalizeDecision, computeFinalResult, hbne2, hcond, hurl, hnopub]

/-- C1 witness: on the concrete store `exDB` (2 true votes, 0 false, public
repo) with the admin decision `"rejected"`, the rejection wins: the stored
final result is `"failed"` with the single rejected-by-administrator reason,
despite the winning vote tally. -/
theorem finalize_decision_rule_c1_witness :
    (∃ ev', evaluationGet (finalize_evaluation exEnv exDB "e1" (some "rejected")).1 "e1" =
        some ev' ∧ ev'.status = "completed" ∧ ev'.final_result = some "failed") ∧
    finalizeDecision exDB "e1" exEval (some "rejected") = ("failed", [adminRejectedReason]) := by
  have h := finalize_decision_rule_c1 exEnv exDB "e1" (some "rejected") exEval rfl rfl
  obtain ⟨⟨ev', h1, h2, h3⟩, h4, -, -⟩ := h
  have hd := h4 rfl
  refine ⟨⟨ev', h1, h2, ?_⟩, hd⟩
  rw [h3, hd]

/-- When the evaluation is missing or not in status `"evaluating"`,
`finalize_evaluation` returns the store unchanged and issues no effect. -/
lemma finalize_noop (env : Env) (db : DB) (eid : String) (a : Option String)
    (h : ∀ ev, evaluationGet db eid = some ev → ev.status ≠ "evaluating") :
    finalize_evaluation env db eid a = (db, []) := by
  cases hget : evaluationGet db eid with
  | none => simp only [finalize_evaluation, hget]
  | some ev =>
    have hb : (ev.status != "evaluating") = true := by simpa using h ev hget
    simp only [finalize_evaluation, hget, hb, if_true]

/-- Running `finalize_evaluation` on an `"evaluating"` record completes it and
archives the evaluation channel at most once. -/
lemma finalize_run (env : Env) (db : DB) (eid : String) (a : Option String)
    (ev : Evaluation) (hev : evaluationGet db eid = some ev)
    (hst : ev.status = "evaluating") :
    evaluationGet (finalize_evaluation env db eid a).1 eid =
      some (finalizeUpdateFn env db eid ev a ev) ∧
    countArchive (finalize_evaluation env db eid a).2 ≤ 1 := by
  have hbne : (ev.status != "evaluating") = false := by simp [hst]
  simp only [finalize_evaluation, hev, hbne, Bool.false_eq_true, if_false]
  constructor
  · split
    · show evaluationGet
        (evaluationUpdate db eid (finalizeUpdateFn env db eid ev a)) eid = _
      rw [evaluationGet_update db eid (finalizeUpdateFn env db eid ev a) (fun e => rfl),
        hev, Option.map_some']
    · show evaluationGet
        (hubUpdate (evaluationUpdate db eid (finalizeUpdateFn env db eid ev a))
          ev.challenge_hub_id _) eid = _
      rw [evaluationGet_hubUpdate,
        evaluationGet_update db eid (finalizeUpdateFn env db eid ev a) (fun e => rfl),
        hev, Option.map_some']
  · rw [countArchive_append]
    have harch := countArchive_archiveIfTruthy ev.evaluation_channel_id
    split
    · simpa [countArchive] using harch
    · rw [countArchive_append, countArchive_postIfTruthy, countArchive_postIfTruthy]
      simpa using harch

/-- C3: `finalize_evaluation` is idempotent — whenever the evaluation's status
is not currently `"evaluating"` it is a no-op (store unchanged, no message,
no archive), so a second call after any first call changes nothing, emits no
effect, and across both calls the evaluation channel is archived at most
once. -/
theorem finalize_idempotent_c3 (env1 env2 : Env) (db : DB) (eid : String)
    (a1 a2 : Option String) :
    (∀ ev, evaluationGet db eid = some ev → ev.status ≠ "evaluating" →
       finalize_evaluation env1 db eid a1 = (db, [])) ∧
    (finalize_evaluation env2 (finalize_evaluation env1 db eid a1).1 eid a2).1 =
      (finalize_evaluation env1 db eid a1).1 ∧
    (finalize_evaluation env2 (finalize_evaluation env1 db eid a1).1 eid a2).2 = [] ∧
    countArchive (finalize_evaluation env1 db eid a1).2 ≤ 1 := by
  refine ⟨fun ev hev hst => finalize_noop env1 db eid a1 ?_, ?_⟩
  · intro ev' hev'
    rw [hev] at hev'
    cases hev'
    exact hst
  · cases hget : evaluationGet db eid with
    | none =>
      have h1 : finalize_evaluation env1 db eid a1 = (db, []) := by
        refine finalize_noop env1 db eid a1 ?_
        intro ev' hev'
        rw [hget] at hev'
        cases hev'
      rw [h1]
      have h2 : finalize_evaluation env2 db eid a2 = (db, []) := by
        refine finalize_noop env2 db eid a2 ?_
        intro ev' hev'
        rw [hget] at hev'
        cases hev'
      rw [h2]
      simp [countArchive]
    | some ev =>
      by_cases hst : ev.status = "evaluating"
      · obtain ⟨hget1, harch1⟩ := finalize_run env1 db eid a1 ev hget hst
        have h2 : finalize_evaluation env2 (finalize_evaluation env1 db eid a1).1 eid a2 =
            ((finalize_evaluation env1 db eid a1).1, []) := by
          refine finalize_noop env2 _ eid a2 ?_
          intro ev' hev'
          rw [hget1] at hev'
          cases hev'
          intro hcon
          exact absurd hcon (by simp [finalizeUpdateFn])
        rw [h2]
        exact ⟨rfl, rfl, harch1⟩
      · have h1 : finalize_evaluation env1 db eid a1 = (db, []) := by
          refine finalize_noop env1 db eid a1 ?_
          intro ev' hev'
          rw [hget] at hev'
          cases hev'
          exact hst
        rw [h1]
        have h2 : finalize_evaluation env2 db eid a2 = (db, []) := by
          refine finalize_noop env2 db eid a2 ?_
          intro ev' hev'
          rw [hget] at hev'
          cases hev'
          exact hst
        rw [h2]
        simp [countArchive]

/-- C3 witness: on the concrete store `exDB` the first finalize completes the
evaluation; re-running finalize on the result is a strict no-op and at most
one archive is ever issued. -/
theorem finalize_idempotent_c3_witness :
    (finalize_evaluation exEnvB (finalize_evaluation exEnv exDB "e1" none).1 "e1" none).1 =
      (finalize_evaluation exEnv exDB "e1" none).1 ∧
    (finalize_evaluation exEnvB (finalize_evaluation exEnv exDB "e1" none).1 "e1" none).2 = [] ∧
    countArchive (finalize_evaluation exEnv exDB "e1" none).2 ≤ 1 ∧
    countArchive (finalize_evaluation exEnv exDB "e1" none).2 = 1 ∧
    finalize_evaluation exEnv exDBDone "e1" none = (exDBDone, []) := by
  have h := finalize_idempotent_c3 exEnv exEnvB exDB "e1" none none
  have hdone := (finalize_idempotent_c3 exEnv exEnvB exDBDone "e1" none none).1
    exEvalDone rfl (by decide)
  exact ⟨h.2.1, h.2.2.1, h.2.2.2, by decide, hdone⟩

/-- C2 (evidence of the code bug): with Slack channel creation failing,
`start_evaluation` on a hub with no prior evaluation returns a failure — but
the evaluation record it created first stays in the store with status
`"pending"`, so the retried `start_evaluation` for the same hub is rejected
as a duplicate instead of succeeding, contrary to the spec's
"leaves the Evaluation absent … retried start requests are safe". -/
theorem start_evaluation_channel_failure_c2 :
    (start_evaluation exEnvFail exDBHubOnly "h1" "TRIG").1.success = false ∧
    (evaluationGet (start_evaluation exEnvFail exDBHubOnly "h1" "TRIG").2.1 "e-new").map
      (fun e => (e.challenge_hub_id, e.status)) = some ("h1", "pending") ∧
    (start_evaluation exEnvFail
        (start_evaluation exEnvFail exDBHubOnly "h1" "TRIG").2.1 "h1" "TRIG").1.success = false ∧
    (start_evaluation exEnvFail
        (start_evaluation exEnvFail exDBHubOnly "h1" "TRIG").2.1 "h1" "TRIG").1.message =
      "⚠️ Bu challenge için değerlendirme zaten başlatılmış." ∧
    (start_evaluation exEnvFail
        (start_evaluation exEnvFail exDBHubOnly "h1" "TRIG").2.1 "h1" "TRIG").2.1 =
      (start_evaluation exEnvFail exDBHubOnly "h1" "TRIG").2.1 := by decide

/-- C9 (evidence of the code bug): `toggle_juror`'s join branch reads the pool
count and inserts the juror as separate repository steps (`tj_read_count`,
`tj_insert`, then `tj_join_finish` on `pre-read count + 1`), so in the
interleaving where two racing joiners both read the count `2` before either
inserts, both insert — the pool reaches 4 — and both observe
`is_full = true`, each firing the batch invite, contrary to the spec's
atomic conditional insert with exactly one fill observation. -/
theorem toggle_juror_race_c9 :
    tj_read_count exDBTwoJurors "e1" = 2 ∧
    count_evaluators (tj_insert exEnvB (tj_insert exEnv exDBTwoJurors "e1" "uA") "e1" "uB") "e1" = 4 ∧
    (tj_join_finish (tj_insert exEnvB (tj_insert exEnv exDBTwoJurors "e1" "uA") "e1" "uB")
        exEval exHub "uA" (tj_read_count exDBTwoJurors "e1" + 1)).1.is_full = some true ∧
    (tj_join_finish (tj_insert exEnvB (tj_insert exEnv exDBTwoJurors "e1" "uA") "e1" "uB")
        exEval exHub "uB" (tj_read_count exDBTwoJurors "e1" + 1)).1.is_full = some true ∧
    ((tj_join_finish (tj_insert exEnvB (tj_insert exEnv exDBTwoJurors "e1" "uA") "e1" "uB")
        exEval exHub "uA" (tj_read_count exDBTwoJurors "e1" + 1)).2.filter isInvite).length = 1 ∧
    ((tj_join_finish (tj_insert exEnvB (tj_insert exEnv exDBTwoJurors "e1" "uA") "e1" "uB")
        exEval exHub "uB" (tj_read_count exDBTwoJurors "e1" + 1)).2.filter isInvite).length = 1 := by
  decide

/-- The partial update `force_complete_evaluation` applies to the row. -/
def forceUpdateFn (env : Env) (res : String) : Evaluation → Evaluation :=
  fun e =>
    { e with status := "completed", final_result := some res,
             completed_at := some env.now }

/-- C4 (amended): once an evaluation is `"completed"`, `finalize_evaluation`
is a no-op and `admin_finalize_evaluation` rejects it without modifying the
store; `force_complete_evaluation`, however, carries no terminal-status
guard — called by the administrator it overwrites the evaluation's final
result and completion timestamp even on a completed evaluation. -/
theorem terminal_evaluation_c4 (env : Env) (db : DB) (eid au ap res : String)
    (adm : Option String) (ev : Evaluation)
    (hev : evaluationGet db eid = some ev) (hst : ev.status = "completed") :
    finalize_evaluation env db eid adm = (db, []) ∧
    (admin_finalize_evaluation env db eid au ap).1.success = false ∧
    (admin_finalize_evaluation env db eid au ap).2.1 = db ∧
    (some au = env.adminId →
       ∃ ev', evaluationGet (force_complete_evaluation env db eid au res).2.1 eid =
           some ev' ∧
         ev'.status = "completed" ∧ ev'.final_result = some res ∧
         ev'.completed_at = some env.now) := by
  have hne : ev.status ≠ "evaluating" := by rw [hst]; decide
  have hfin : finalize_evaluation env db eid adm = (db, []) := by
    refine finalize_noop env db eid adm ?_
    intro ev' hev'
    rw [hev] at hev'
    cases hev'
    exact hne
  have hadminfin : (admin_finalize_evaluation env db eid au ap).1.success = false ∧
      (admin_finalize_evaluation env db eid au ap).2.1 = db := by
    cases hadm : (some au == env.adminId) with
    | false =>
      simp only [admin_finalize_evaluation, hadm, Bool.not_false, if_true]
      exact ⟨trivial, trivial⟩
    | true =>
      have hcs : (ev.status == "completed") = true := by rw [hst]; decide
      simp only [admin_finalize_evaluation, hadm, Bool.not_true, Bool.false_eq_true,
        if_false, hev, hcs, if_true]
      exact ⟨trivial, trivial⟩
  refine ⟨hfin, hadminfin.1, hadminfin.2, ?_⟩
  intro hadmEq
  have hadmb : (some au == env.adminId) = true := by simp [← hadmEq]
  simp only [force_complete_evaluation, hadmb, Bool.not_true, Bool.false_eq_true,
    if_false, hev]
  refine ⟨forceUpdateFn env res ev, ?_, rfl, rfl, rfl⟩
  show evaluationGet
    (hubUpdate (evaluationUpdate db eid (forceUpdateFn env res))
      ev.challenge_hub_id _) eid = _
  rw [evaluationGet_hubUpdate,
    evaluationGet_update db eid (forceUpdateFn env res) (fun e => rfl), hev,
    Option.map_some']

/-- C4 witness: on the completed store `exDBDone`, finalize and admin-finalize
leave everything untouched, while the admin's force-complete overwrites the
stored result with `"failed"`. -/
theorem terminal_evaluation_c4_witness :
    finalize_evaluation exEnv exDBDone "e1" none = (exDBDone, []) ∧
    (admin_finalize_evaluation exEnv exDBDone "e1" "ADMIN" "approved").1.success = false ∧
    (admin_finalize_evaluation exEnv exDBDone "e1" "ADMIN" "approved").2.1 = exDBDone ∧
    (∃ ev', evaluationGet
        (force_complete_evaluation exEnv exDBDone "e1" "ADMIN" "failed").2.1 "e1" =
          some ev' ∧
      ev'.status = "completed" ∧ ev'.final_result = some "failed" ∧
      ev'.completed_at = some exEnv.now) := by
  have h := terminal_evaluation_c4 exEnv exDBDone "e1" "ADMIN" "approved" "failed"
    none exEvalDone rfl rfl
  exact ⟨h.1, h.2.1, h.2.2.1, h.2.2.2 rfl⟩

/-- C4 counterexample: `force_complete_evaluation` has no terminal-status
guard — forcing an already `completed` evaluation (final result `success`)
overwrites its final result with `failed`, so a completed evaluation is not
left unchanged by every subsequent `force_complete_evaluation` call. -/
theorem force_complete_on_completed_changes_c4 :
    exEvalDone.status = "completed" ∧
    exEvalDone.final_result = some "success" ∧
    (force_complete_evaluation exEnv exDBDone "e1" "ADMIN" "failed").1.success = true ∧
    (evaluationGet (force_complete_evaluation exEnv exDBDone "e1" "ADMIN" "failed").2.1 "e1").map
      (fun e => e.final_result) = some (some "failed") ∧
    (force_complete_evaluation exEnv exDBDone "e1" "ADMIN" "failed").2.1 ≠ exDBDone := by decide

/-- C5: the hub creator, any participant of the hub, and the configured
administrator never successfully join the jury pool and never successfully
cast a vote: on any such user, `toggle_juror` and `submit_vote` both return
a non-exception failure result and leave the record store unchanged (no
evaluator record created, no vote recorded). -/
theorem eligibility_exclusion_c5 (env : Env) (db : DB) (eid uid vote : String)
    (ev : Evaluation) (hub : ChallengeHub)
    (hev : evaluationGet db eid = some ev)
    (hhub : hubGet db ev.challenge_hub_id = some hub)
    (helig : some uid = env.adminId ∨ some uid = hub.creator_id ∨
             uid ∈ (participantsOf db hub.id).map (fun p => p.user_id)) :
    (toggle_juror env db eid uid).1.success = false ∧
    (toggle_juror env db eid uid).2.1 = db ∧
    (submit_vote env db eid uid vote).1.success = false ∧
    (submit_vote env db eid uid vote).2.1 = db := by
  have hcond : (some uid == env.adminId || some uid == hub.creator_id ||
      ((participantsOf db hub.id).map (fun p => p.user_id)).contains uid) = true := by
    rcases helig with h | h | h
    · simp [← h]
    · simp [← h]
    · simp [List.contains, h]
  have htog : (toggle_juror env db eid uid).1.success = false ∧
      (toggle_juror env db eid uid).2.1 = db := by
    simp only [toggle_juror, hev, hhub, hcond, if_true]
    exact ⟨trivial, trivial⟩
  have hsub : (submit_vote env db eid uid vote).1.success = false ∧
      (submit_vote env db eid uid vote).2.1 = db := by
    cases hadm : (some uid == env.adminId) with
    | true =>
      simp only [submit_vote, hev, hhub, hadm, if_true]
      exact ⟨trivial, trivial⟩
    | false =>
      cases hcr : (some uid == hub.creator_id) with
      | true =>
        simp only [submit_vote, hev, hhub, hadm, Bool.false_eq_true, if_false,
          hcr, if_true]
        exact ⟨trivial, trivial⟩
      | false =>
        have hmem : (((participantsOf db hub.id).map (fun p => p.user_id)).contains uid)
            = true := by
          rcases helig with h | h | h
          · rw [← h] at hadm
            simp at hadm
          · rw [← h] at hcr
            simp at hcr
          · simp [List.contains, h]
        simp only [submit_vote, hev, hhub, hadm, hcr, Bool.false_eq_true, if_false,
          hmem, if_true]
        exact ⟨trivial, trivial⟩
  exact ⟨htog.1, htog.2, hsub.1, hsub.2⟩

/-- C5 witness: on `exDB`, the administrator, the hub creator and the
participant `"member1"` all fail to join the jury or vote, and the store is
untouched. -/
theorem eligibility_exclusion_c5_witness :
    (toggle_juror exEnv exDB "e1" "ADMIN").1.success = false ∧
    (toggle_juror exEnv exDB "e1" "creator").2.1 = exDB ∧
    (submit_vote exEnv exDB "e1" "member1" "true").1.success = false ∧
    (submit_vote exEnv exDB "e1" "member1" "true").2.1 = exDB := by
  have hadm := eligibility_exclusion_c5 exEnv exDB "e1" "ADMIN" "true" exEval exHub
    rfl rfl (Or.inl rfl)
  have hcr := eligibility_exclusion_c5 exEnv exDB "e1" "creator" "true" exEval exHub
    rfl rfl (Or.inr (Or.inl rfl))
  have hpart := eligibility_exclusion_c5 exEnv exDB "e1" "member1" "true" exEval exHub
    rfl rfl (Or.inr (Or.inr (by decide)))
  exact ⟨hadm.1, hcr.2.1, hpart.2.2.1, hpart.2.2.2⟩

/-- C6: a juror's vote is write-once — once the evaluator record's vote field
is non-empty, any further `submit_vote` by that user on that evaluation is
rejected with a failure result and the record store (stored vote value and
running tallies included) is unchanged. -/
theorem vote_write_once_c6 (env : Env) (db : DB) (eid uid vote : String)
    (evr : Evaluator)
    (hj : get_by_evaluation_and_user db eid uid = some evr)
    (hv : truthy evr.vote = true) :
    (submit_vote env db eid uid vote).1.success = false ∧
    (submit_vote env db eid uid vote).2.1 = db := by
  cases hget : evaluationGet db eid with
  | none =>
    simp only [submit_vote, hget]
    exact ⟨trivial, trivial⟩
  | some ev =>
    cases hhub : hubGet db ev.challenge_hub_id with
    | none =>
      simp only [submit_vote, hget, hhub]
      exact ⟨trivial, trivial⟩
    | some hub =>
      cases hadm : (some uid == env.adminId) with
      | true =>
        simp only [submit_vote, hget, hhub, hadm, if_true]
        exact ⟨trivial, trivial⟩
      | false =>
        cases hcr : (some uid == hub.creator_id) with
        | true =>
          simp only [submit_vote, hget, hhub, hadm, Bool.false_eq_true, if_false,
            hcr, if_true]
          exact ⟨trivial, trivial⟩
        | false =>
          cases hmem : ((participantsOf db hub.id).map (fun p => p.user_id)).contains uid with
          | true =>
            simp only [submit_vote, hget, hhub, hadm, hcr, hmem, Bool.false_eq_true,
              if_false, if_true]
            exact ⟨trivial, trivial⟩
          | false =>
            simp only [submit_vote, hget, hhub, hadm, hcr, hmem, Bool.false_eq_true,
              if_false, hj, hv, if_true]
            exact ⟨trivial, trivial⟩

/-- C6 witness: on `exDB` the juror `"u1"` has already voted `"true"`; a new
`submit_vote` by `"u1"` fails and changes nothing. -/
theorem vote_write_once_c6_witness :
    (submit_vote exEnv exDB "e1" "u1" "false").1.success = false ∧
    (submit_vote exEnv exDB "e1" "u1" "false").2.1 = exDB := by
  have h := vote_write_once_c6 exEnv exDB "e1" "u1" "false"
    ⟨"j1", "e1", "u1", some "true", some "T"⟩ rfl (by decide)
  exact ⟨h.1, h.2⟩

/-- Deleting an evaluator row can only shrink the jury pool. -/
lemma count_evaluators_delete_le (db : DB) (i eid : String) :
    count_evaluators (evaluatorDelete db i) eid ≤ count_evaluators db eid := by
  unfold count_evaluators evaluatorDelete
  exact List.Sublist.length_le (List.Sublist.filter _ (List.filter_sublist _))

/-- Inserting a juror for `eid` grows that evaluation's pool by exactly one. -/
lemma count_evaluators_insert (env : Env) (db : DB) (eid uid : String) :
    count_evaluators (tj_insert env db eid uid) eid = count_evaluators db eid + 1 := by
  unfold count_evaluators tj_insert evaluatorCreate
  rw [List.filter_append, List.length_append]
  simp

/-- C7: the jury pool never exceeds 3 — a join attempt by an eligible
non-member while the pool already holds 3 returns the "pool full" failure
and creates no evaluator record, and any `toggle_juror` call on a pool of at
most 3 leaves it at most 3. -/
theorem jury_capacity_c7 (env : Env) (db : DB) (eid uid : String) :
    (∀ ev hub, evaluationGet db eid = some ev →
       hubGet db ev.challenge_hub_id = some hub →
       (some uid == env.adminId || some uid == hub.creator_id ||
         ((participantsOf db hub.id).map (fun p => p.user_id)).contains uid) = false →
       get_by_evaluation_and_user db eid uid = none →
       3 ≤ count_evaluators db eid →
       toggle_juror env db eid uid =
         ({ success := false, message := "⚠️ Jüri kontenjanı dolu (3/3).",
            action := some "full" }, db, [])) ∧
    (count_evaluators db eid ≤ 3 →
       count_evaluators (toggle_juror env db eid uid).2.1 eid ≤ 3) := by
  constructor
  · intro ev hub hev hhub hcond hnoj hge
    have hge' : tj_read_count db eid ≥ 3 := hge
    simp only [toggle_juror, hev, hhub, hcond, Bool.false_eq_true, if_false, hnoj,
      if_pos hge']
  · intro hle
    cases hget : evaluationGet db eid with
    | none =>
      simp only [toggle_juror, hget]
      exact hle
    | some ev =>
      cases hhub : hubGet db ev.challenge_hub_id with
      | none =>
        simp only [toggle_juror, hget, hhub]
        exact hle
      | some hub =>
        cases hcond : (some uid == env.adminId || some uid == hub.creator_id ||
            ((participantsOf db hub.id).map (fun p => p.user_id)).contains uid) with
        | true =>
          simp only [toggle_juror, hget, hhub, hcond, if_true]
          exact hle
        | false =>
          cases hnoj : get_by_evaluation_and_user db eid uid with
          | some j =>
            simp only [toggle_juror, hget, hhub, hcond, Bool.false_eq_true, if_false,
              hnoj]
            exact le_trans (count_evaluators_delete_le db j.id eid) hle
          | none =>
            by_cases hfull : tj_read_count db eid ≥ 3
            · simp only [toggle_juror, hget, hhub, hcond, Bool.false_eq_true, if_false,
                hnoj, if_pos hfull]
              exact hle
            · simp only [toggle_juror, hget, hhub, hcond, Bool.false_eq_true, if_false,
                hnoj, if_neg hfull]
              rw [count_evaluators_insert]
              have hlt : count_evaluators db eid < 3 := by
                unfold tj_read_count at hfull
                omega
              omega

/-- C7 witness: `exDB` already holds 3 jurors, so the eligible outsider
`"u9"` is rejected with the pool-full result and the pool stays at 3. -/
theorem jury_capacity_c7_witness :
    toggle_juror exEnv exDB "e1" "u9" =
      ({ success := false, message := "⚠️ Jüri kontenjanı dolu (3/3).",
         action := some "full" }, exDB, []) ∧
    count_evaluators (toggle_juror exEnv exDB "e1" "u9").2.1 "e1" ≤ 3 := by
  have h := jury_capacity_c7 exEnv exDB "e1" "u9"
  exact ⟨h.1 exEval exHub rfl rfl (by decide) rfl (by decide), h.2 (by decide)⟩

/-- The partial update `submit_vote` applies to the evaluator row. -/
def voteUpdateFn (env : Env) (vote : String) : Evaluator → Evaluator :=
  fun ev => { ev with vote := some (strLower vote), voted_at := some env.now }

/-- The running-tally update `submit_vote` applies to the evaluation row,
recomputed over the store `db1` that already holds the new vote. -/
def tallyUpdateFn (db1 : DB) (eid : String) : Evaluation → Evaluation :=
  fun e =>
    { e with true_count := get_votes_true db1 eid,
             false_count := get_votes_false db1 eid }

/-- A successful `submit_vote` passed every guard: the records exist, the
caller is a registered juror with an empty vote, and the store is updated by
exactly the vote write and the tally write; the effect trace holds no
channel archival. -/
lemma submit_vote_success_shape (env : Env) (db : DB) (eid uid vote : String)
    (hs : (submit_vote env db eid uid vote).1.success = true) :
    ∃ ev evr, evaluationGet db eid = some ev ∧
      get_by_evaluation_and_user db eid uid = some evr ∧
      truthy evr.vote = false ∧
      (submit_vote env db eid uid vote).2.1 =
        evaluationUpdate (evaluatorUpdate db evr.id (voteUpdateFn env vote)) eid
          (tallyUpdateFn (evaluatorUpdate db evr.id (voteUpdateFn env vote)) eid) ∧
      countArchive (submit_vote env db eid uid vote).2.2 = 0 := by
  cases hget : evaluationGet db eid with
  | none =>
    rw [show (submit_vote env db eid uid vote).1.success = false by
      simp only [submit_vote, hget]] at hs
    cases hs
  | some ev =>
    cases hhub : hubGet db ev.challenge_hub_id with
    | none =>
      rw [show (submit_vote env db eid uid vote).1.success = false by
        simp only [submit_vote, hget, hhub]] at hs
      cases hs
    | some hub =>
      cases hadm : (some uid == env.adminId) with
      | true =>
        rw [show (submit_vote env db eid uid vote).1.success = false by
          simp only [submit_vote, hget, hhub, hadm, if_true]] at hs
        cases hs
      | false =>
        cases hcr : (some uid == hub.creator_id) with
        | true =>
          rw [show (submit_vote env db eid uid vote).1.success = false by
            simp only [submit_vote, hget, hhub, hadm, Bool.false_eq_true, if_false,
              hcr, if_true]] at hs
          cases hs
        | false =>
          cases hmem : ((participantsOf db hub.id).map (fun p => p.user_id)).contains uid with
          | true =>
            rw [show (submit_vote env db eid uid vote).1.success = false by
              simp only [submit_vote, hget, hhub, hadm, hcr, hmem, Bool.false_eq_true,
                if_false, if_true]] at hs
            cases hs
          | false =>
            cases hj : get_by_evaluation_and_user db eid uid with
            | none =>
              rw [show (submit_vote env db eid uid vote).1.success = false by
                simp only [submit_vote, hget, hhub, hadm, hcr, hmem, Bool.false_eq_true,
                  if_false, hj]] at hs
              cases hs
            | some evr =>
              cases hv : truthy evr.vote with
              | true =>
                rw [show (submit_vote env db eid uid vote).1.success = false by
                  simp only [submit_vote, hget, hhub, hadm, hcr, hmem,
                    Bool.false_eq_true, if_false, hj, hv, if_true]] at hs
                cases hs
              | false =>
                refine ⟨ev, evr, rfl, rfl, hv, ?_, ?_⟩
                · simp only [submit_vote, hget, hhub, hadm, hcr, hmem,
                    Bool.false_eq_true, if_false, hj, hv]
                  rfl
                · simp only [submit_vote, hget, hhub, hadm, hcr, hmem,
                    Bool.false_eq_true, if_false, hj, hv]
                  split
                  · split
                    · split
                      · split <;> rfl
                      · rfl
                    · rfl
                  · rfl

/-- C8: a successful `submit_vote` touches only the evaluator's vote fields
and the evaluation's running tallies: the hubs table is untouched, the
evaluation's status, final result, completion timestamp, admin approval and
GitHub fields are all unchanged (so no finalization happens, even when the
vote total reaches 3), and no channel is archived. -/
theorem submit_vote_frame_c8 (env : Env) (db : DB) (eid uid vote : String)
    (hs : (submit_vote env db eid uid vote).1.success = true) :
    (submit_vote env db eid uid vote).2.1.hubs = db.hubs ∧
    (∀ e, evaluationGet db eid = some e →
       ∃ e', evaluationGet (submit_vote env db eid uid vote).2.1 eid = some e' ∧
         e'.status = e.status ∧ e'.final_result = e.final_result ∧
         e'.completed_at = e.completed_at ∧ e'.admin_approval = e.admin_approval ∧
         e'.github_repo_url = e.github_repo_url ∧
         e'.github_repo_public = e.github_repo_public) ∧
    countArchive (submit_vote env db eid uid vote).2.2 = 0 := by
  obtain ⟨ev, evr, hget, hj, hv, hdb, heff⟩ :=
    submit_vote_success_shape env db eid uid vote hs
  refine ⟨?_, ?_, heff⟩
  · rw [hdb]
    rfl
  · intro e he
    rw [hdb,
      evaluationGet_update _ eid
        (tallyUpdateFn (evaluatorUpdate db evr.id (voteUpdateFn env vote)) eid)
        (fun e => rfl),
      evaluationGet_evaluatorUpdate, he, Option.map_some']
    exact ⟨_, rfl, rfl, rfl, rfl, rfl, rfl, rfl⟩

/-- C8 witness: on `exDB` the juror `"u3"` casts the third vote: the call
succeeds, the hubs table is untouched, the evaluation stays `"evaluating"`
with no final result or completion timestamp, and nothing is archived. -/
theorem submit_vote_frame_c8_witness :
    (submit_vote exEnv exDB "e1" "u3" "false").1.success = true ∧
    (submit_vote exEnv exDB "e1" "u3" "false").2.1.hubs = exDB.hubs ∧
    (∃ e', evaluationGet (submit_vote exEnv exDB "e1" "u3" "false").2.1 "e1" = some e' ∧
       e'.status = "evaluating" ∧ e'.final_result = none ∧ e'.completed_at = none) ∧
    countArchive (submit_vote exEnv exDB "e1" "u3" "false").2.2 = 0 := by
  have hs : (submit_vote exEnv exDB "e1" "u3" "false").1.success = true := by decide
  have h := submit_vote_frame_c8 exEnv exDB "e1" "u3" "false" hs
  obtain ⟨e', he', h1, h2, h3, -⟩ := h.2.1 exEval rfl
  exact ⟨hs, h.1, ⟨e', he', h1.trans rfl, h2.trans rfl, h3.trans rfl⟩, h.2.2⟩

/-- Evaluation-row updates do not affect the evaluator lookup. -/
lemma get_by_eval_user_evaluationUpdate (db : DB) (i : String)
    (f : Evaluation → Evaluation) (eid uid : String) :
    get_by_evaluation_and_user (evaluationUpdate db i f) eid uid =
      get_by_evaluation_and_user db eid uid := rfl

/-- A falsy vote field never equals a non-empty vote literal. -/
lemma falsy_vote_beq_false (v : Option String) (hv : truthy v = false) (w : String)
    (hw : w ≠ "") : (v == some w) = false := by
  cases v with
  | none => rfl
  | some s =>
    have hs : s = "" := by
      have : s.isEmpty = true := by simpa [truthy] using hv
      exact (String.isEmpty_iff s).1 this
    subst hs
    simpa using fun h => hw h.symm

/-- C10 (amended): `submit_vote` does not validate the vote value — a
successful call persists the lowercased vote string verbatim on the
evaluator record; only the boolean-like values `"true"`/`"false"` are
counted by the tallies, so when the lowercased vote is neither, the
recomputed stored tallies equal the vote counts taken before the call
(assuming the store's primary-key uniqueness invariant). -/
theorem submit_vote_no_validation_c10 (env : Env) (db : DB) (eid uid vote : String)
    (hs : (submit_vote env db eid uid vote).1.success = true)
    (huniq : ∀ x ∈ db.evaluators, ∀ y ∈ db.evaluators, x.id = y.id → x = y)
    (hvt : strLower vote ≠ "true") (hvf : strLower vote ≠ "false") :
    (∃ evr', get_by_evaluation_and_user (submit_vote env db eid uid vote).2.1 eid uid =
        some evr' ∧ evr'.vote = some (strLower vote)) ∧
    (∃ e', evaluationGet (submit_vote env db eid uid vote).2.1 eid = some e' ∧
       e'.true_count = get_votes_true db eid ∧
       e'.false_count = get_votes_false db eid) := by
  obtain ⟨ev, evr, hget, hj, hv, hdb, -⟩ :=
    submit_vote_success_shape env db eid uid vote hs
  have hevrmem : evr ∈ db.evaluators := List.mem_of_find?_eq_some hj
  have hcount : ∀ (w : String), w ≠ "" → strLower vote ≠ w →
      ((db.evaluators.map (fun x => if x.id == evr.id then voteUpdateFn env vote x else x)).filter
        (fun x => x.evaluation_id == eid && x.vote == some w)).length =
      (db.evaluators.filter (fun x => x.evaluation_id == eid && x.vote == some w)).length := by
    intro w hw hvw
    refine length_filter_map_eq _ _ _ ?_
    intro x hx
    by_cases hxi : (x.id == evr.id) = true
    · have hxe : x = evr := huniq x hx evr hevrmem (by simpa using hxi)
      subst hxe
      rw [if_pos hxi]
      have h1 : ((voteUpdateFn env vote x).vote == some w) = false := by
        show ((some (strLower vote) : Option String) == some w) = false
        simpa using fun h => hvw h
      have h2 : (x.vote == some w) = false := falsy_vote_beq_false x.vote hv w hw
      rw [h1, h2, Bool.and_false, Bool.and_false]
    · rw [if_neg hxi]
  refine ⟨?_, ?_⟩
  · rw [hdb, get_by_eval_user_evaluationUpdate,
      get_by_eval_user_update db evr.id (voteUpdateFn env vote) (fun x => rfl)
        (fun x => rfl) eid uid, hj, Option.map_some']
    refine ⟨_, rfl, ?_⟩
    rw [if_pos (by simp)]
    rfl
  · rw [hdb,
      evaluationGet_update _ eid
        (tallyUpdateFn (evaluatorUpdate db evr.id (voteUpdateFn env vote)) eid)
        (fun e => rfl),
      evaluationGet_evaluatorUpdate, hget, Option.map_some']
    refine ⟨_, rfl, ?_, ?_⟩
    · show get_votes_true (evaluatorUpdate db evr.id (voteUpdateFn env vote)) eid =
        get_votes_true db eid
      exact hcount "true" (by decide) hvt
    · show get_votes_false (evaluatorUpdate db evr.id (voteUpdateFn env vote)) eid =
        get_votes_false db eid
      exact hcount "false" (by decide) hvf

/-- C10 amended-claim witness: `"u3"` submitting `"Banana"` on `exDB`
succeeds; the stored vote is `"banana"` and the recomputed tallies still
read 2 true / 0 false. -/
theorem submit_vote_no_validation_c10_witness :
    (∃ evr', get_by_evaluation_and_user
        (submit_vote exEnv exDB "e1" "u3" "Banana").2.1 "e1" "u3" = some evr' ∧
      evr'.vote = some (strLower "Banana")) ∧
    (∃ e', evaluationGet (submit_vote exEnv exDB "e1" "u3" "Banana").2.1 "e1" = some e' ∧
      e'.true_count = get_votes_true exDB "e1" ∧
      e'.false_count = get_votes_false exDB "e1") := by
  exact submit_vote_no_validation_c10 exEnv exDB "e1" "u3" "Banana" (by decide)
    (by decide) (by decide) (by decide)

/-- C10 counterexample: `submit_vote` performs no validation of the vote
value — the registered, eligible, not-yet-voted juror `"u3"` submitting
`"Banana"` (not a boolean-like value) gets a success result and the
lowercased vote `"banana"` is persisted on the evaluator record, contrary to
"no vote is persisted". -/
theorem submit_vote_invalid_persisted_c10 :
    (get_by_evaluation_and_user exDB "e1" "u3").map (fun ev => ev.vote) = some none ∧
    (submit_vote exEnv exDB "e1" "u3" "Banana").1.success = true ∧
    (get_by_evaluation_and_user (submit_vote exEnv exDB "e1" "u3" "Banana").2.1 "e1" "u3").map
      (fun ev => ev.vote) = some (some "banana") := by decide

end Cemil
